import Mathlib

/-!
Verification of the reflective action-mapping engine of the `circle`
HTTP-server toolkit (Go).  The definitions below are a shallow embedding of
the Go source: constructor validation (src/kit/core/ioc/ioc.go,
src/kit/app/internal/reflect.go), route-name derivation
(src/unnamed/part_014 GenRoute, src/kit/app/internal/options.go Ensure),
action discovery (src/unnamed/part_013 makeActions, src/app/reflect.go
makeReflect), route binding (src/app/gin.go fillGroups / fillActions) and
the per-request pipeline (src/unnamed/part_013 fillActions handler and
handleInterceptors, src/app/gin.go fillActions handler).

Go panics and returned errors are both embedded as `Except String`;
Go interface values of static interface type are embedded as `Option`
(with `none` for the nil interface); a Go interface value produced from a
reflect.Value of a concrete pointer type is embedded by `AnyVal`, which
keeps the crucial distinction between an untyped nil interface and an
interface that wraps a concrete-typed nil pointer.
-/

namespace Circle

/-- The reflect.Kind values relevant to constructor validation.
`funcKind` is reflect.Func, `pointer` reflect.Pointer, `interface_`
reflect.Interface; `intKind` stands for any other kind (used by
counterexamples). -/
inductive GoKind where
  | funcKind
  | pointer
  | interface_
  | structKind
  | intKind
deriving DecidableEq, Repr

/-- A Go value handed to Provide/Register/Load as a constructor, as seen by
reflection inside VerifyConstructor (src/kit/app/internal/reflect.go
163-198) and MustConstructor (src/kit/core/ioc/ioc.go 18-53):
its reflect.Kind, the runtime function name reported by
runtime.FuncForPC (a dotted path such as "main.NewFoo"), whether it is
variadic, and the kinds of its return values. -/
structure ConstructorDesc where
  kind : GoKind
  runtimeName : String
  variadic : Bool
  outKinds : List GoKind
deriving DecidableEq, Repr

/-- strings.HasSuffix over the underlying character list. -/
def strEndsWith (s suffix : String) : Bool :=
  suffix.data.isSuffixOf s.data

/-- strings.HasPrefix over the underlying character list. -/
def strStartsWith (s p : String) : Bool :=
  p.data.isPrefixOf s.data

/-- strings.ToLower over the underlying character list (ASCII is all the
engine ever feeds it: Go type and method names). -/
def lowerStr (s : String) : String :=
  ⟨s.data.map Char.toLower⟩

/-- Removes the last n characters, as the specification's
suffix-stripping reading requires. -/
def dropRightStr (s : String) (n : Nat) : String :=
  ⟨s.data.take (s.data.length - n)⟩

/-- Scanner for strings.ReplaceAll(s, pat, ""): at each position, if the
(non-empty) pattern starts here, skip it and continue after it,
otherwise keep the character; occurrences are consumed left to right
without overlap, exactly as strings.Replace with n < 0 does.  The Nat
argument is recursion fuel, always called with the string length, which
every step strictly decreases. -/
def removeAllAux (pat : List Char) : Nat → List Char → List Char
  | 0, s => s
  | _ + 1, [] => []
  | n + 1, c :: rest =>
    if pat ≠ [] ∧ pat.isPrefixOf (c :: rest) then
      removeAllAux pat n ((c :: rest).drop pat.length)
    else c :: removeAllAux pat n rest

/-- strings.ReplaceAll(s, pat, ""): every occurrence of pat deleted.
For the empty pattern Go inserts the empty replacement between the
characters, leaving s unchanged, which the scanner reproduces. -/
def removeAllStr (s pat : String) : String :=
  ⟨removeAllAux pat.data s.data.length s.data⟩

/-- The funcName computation of VerifyConstructor: Go splits the runtime
name on "." and takes arr[0] when the split has one element, otherwise the
last element; strings.Split always returns a non-empty slice, so both
cases take the last element of the split. -/
def lastDotSegment (s : String) : String :=
  ⟨((s.data.splitOn '.').getLastD s.data)⟩

/-- VerifyConstructor from src/kit/app/internal/reflect.go lines 163-198;
MustConstructor in src/kit/core/ioc/ioc.go lines 18-53 is textually
identical.  Each Go panic is embedded as `Except.error` with the panic
message.  The NumOut() != 1 check and the Out(0) kind check are together
embedded as the match on `outKinds`: a non-singleton list fails with the
NumOut message, a singleton fails with the kind message unless the single
return kind is pointer or interface. -/
def VerifyConstructor (c : ConstructorDesc) : Except String Unit :=
  if c.kind ≠ GoKind.funcKind then .error "constructor must be func"
  else if ¬ strStartsWith (lastDotSegment c.runtimeName) "New" then
    .error "constructor must start with New"
  else if c.variadic then .error "do not accept variadic func"
  else
    match c.outKinds with
    | [k] =>
      if k = GoKind.pointer ∨ k = GoKind.interface_ then .ok ()
      else .error "rtn value type must be pointer or interface"
    | _ => .error "only support one return value"

/-- A lowercase-preserving model of strcase.ToSnake (external dependency
github.com/iancoleman/strcase, not part of src/): an underscore is
inserted before each interior uppercase letter and all letters are
lowercased.  This agrees with strcase.ToSnake on plain alphabetic Go
identifiers, which is all the concrete examples below use; theorems that
do not depend on the concrete converter are stated for an arbitrary
`toSnake` function. -/
def toSnakeChars : Bool → List Char → List Char
  | _, [] => []
  | first, c :: rest =>
    if c.isUpper then
      (if first then [c.toLower] else ['_', c.toLower]) ++ toSnakeChars false rest
    else c :: toSnakeChars false rest

/-- Entry point of the snake-case model. -/
def toSnakeSimple (s : String) : String :=
  ⟨toSnakeChars true s.data⟩

/-- The suffix loop of GenRoute (src/unnamed/part_014 lines 11-16) and of
makeName (src/unnamed/part_013 lines 297-302): walk the configured suffix
list in order; at the first suffix the lowercased name ends with, apply
strings.ReplaceAll (which removes every occurrence of that suffix, not
only the trailing one) and break. -/
def applySuffixes : List String → String → String
  | [], lr => lr
  | s :: rest, lr =>
    if strEndsWith lr s then removeAllStr lr s else applySuffixes rest lr

/-- GenRoute from src/unnamed/part_014 lines 8-19 (identical to
App.makeName in src/unnamed/part_013 lines 294-305), parametric in the
external snake-case converter: lowercase the resource type name, remove
the first matching configured suffix via the loop above, snake-case both
segments. -/
def GenRoute (toSnake : String → String) (suffixes : List String)
    (resource action : String) : String × String :=
  (toSnake (applySuffixes suffixes (lowerStr resource)), toSnake action)

/-- The specification's reading of suffix stripping: remove only the
trailing occurrence of the first matching configured suffix.  This
definition follows the spec's words ("with the first matching configured
suffix stripped"), to be compared against the source-derived `GenRoute`. -/
def stripSuffixOnce : List String → String → String
  | [], lr => lr
  | s :: rest, lr =>
    if strEndsWith lr s then dropRightStr lr s.data.length else stripSuffixOnce rest lr

/-- Resource-name derivation as the specification words it: lower-case,
strip the first matching suffix (trailing occurrence only), snake-case. -/
def genRouteSpec (toSnake : String → String) (suffixes : List String)
    (resource action : String) : String × String :=
  (toSnake (stripSuffixOnce suffixes (lowerStr resource)), toSnake action)

/-- The option fields consulted by Options.Ensure that matter to the
claims under study, from src/kit/app/internal/options.go lines 18-41
(Addr, CtxTimeout, Suffixes; CtxTimeout is a time.Duration counted in
nanoseconds). -/
structure AppOptions where
  addr : String
  ctxTimeoutNs : Nat
  suffixes : List String
deriving DecidableEq, Repr

/-- Options.Ensure from src/kit/app/internal/options.go lines 43-55:
default the listen address to ":8080", the per-request timeout to
30 seconds, and the suffix list to service/handler/usecase/controller. -/
def AppOptions.ensure (o : AppOptions) : AppOptions :=
  { addr := if o.addr = "" then ":8080" else o.addr
    ctxTimeoutNs := if o.ctxTimeoutNs = 0 then 30 * 1000000000 else o.ctxTimeoutNs
    suffixes :=
      if o.suffixes = [] then ["service", "handler", "usecase", "controller"]
      else o.suffixes }

/-- Response kinds assigned by discovery (src/unnamed/part_013 lines
27-30): json for an ordinary pointer-to-struct result, stream when the
result type also implements fs.File. -/
inductive RespType where
  | json
  | stream
deriving DecidableEq, Repr

/-- One method of a resolved service instance as reflection presents it
to discovery: its name, whether it is exported, NumIn (receiver
included) and NumOut, and the outcome of the four type-shape probes the
engine performs once the arity matches — In(1) assignable to
context.Context, pointer-to-In(2) implements Request, Out(0) is a
pointer to struct, Out(0) implements fs.File, Out(1) implements error. -/
structure GoMethod where
  name : String
  exported : Bool
  numIn : Nat
  numOut : Nat
  in1Context : Bool
  in2Request : Bool
  out0PtrToStruct : Bool
  out0IsFile : Bool
  out1Error : Bool
deriving DecidableEq, Repr

/-- MustResponse from src/kit/app/internal/reflect.go lines 142-154:
panics unless the first result type is a pointer to a struct; classifies
the response as stream when the pointer type implements fs.File, json
otherwise. -/
def MustResponse (ptrToStruct isFile : Bool) : Except String RespType :=
  if ¬ ptrToStruct then .error "this position type must be a pointer of struct"
  else if isFile then .ok RespType.stream
  else .ok RespType.json

/-- MustError from src/kit/app/internal/reflect.go lines 156-161: panics
unless the second result type implements error. -/
def MustError (implementsError : Bool) : Except String Unit :=
  if implementsError then .ok () else .error "this position type must be error"

/-- An action discovered by makeActions / MakeReflect: the derived
resource and method path segments and the response kind.  (The bind
prototype and the bound method value are runtime data modelled by the
request pipeline below.) -/
structure DiscoveredAction where
  serviceName : String
  methodName : String
  respType : RespType
deriving DecidableEq, Repr

/-- The method loop of App.makeActions (src/unnamed/part_013 lines
241-291), identical to MakeReflect in src/kit/app/internal/reflect.go
lines 77-127: skip unexported methods; skip methods whose arity is not
(3 in including receiver, 2 out); skip methods whose first parameter is
not a context or whose second parameter does not satisfy Request; then
fatally validate the two results and record the action with names from
GenRoute.  Embedded over the service's method list; a panic anywhere
aborts the whole discovery, exactly as in Go. -/
def makeActions (toSnake : String → String) (suffixes : List String)
    (svcTypeName : String) : List GoMethod → Except String (List DiscoveredAction)
  | [] => .ok []
  | m :: rest =>
    if ¬ m.exported then makeActions toSnake suffixes svcTypeName rest
    else if m.numIn ≠ 3 ∨ m.numOut ≠ 2 then makeActions toSnake suffixes svcTypeName rest
    else if ¬ m.in1Context then makeActions toSnake suffixes svcTypeName rest
    else if ¬ m.in2Request then makeActions toSnake suffixes svcTypeName rest
    else do
      let rt ← MustResponse m.out0PtrToStruct m.out0IsFile
      MustError m.out1Error
      let names := GenRoute toSnake suffixes svcTypeName m.name
      let acts ← makeActions toSnake suffixes svcTypeName rest
      .ok ({ serviceName := names.fst, methodName := names.snd, respType := rt } :: acts)

/-- An action discovered by the src/app/reflect.go variant (no response
kind there; service-level omitted/anonymous flags). -/
structure AppAction where
  serviceName : String
  methodName : String
  omitted : Bool
  anonymous : Bool
deriving DecidableEq, Repr

/-- makeReflect from src/app/reflect.go lines 19-84: the service type
name must end in "Service" (fatal otherwise) and the resource name is
strings.ReplaceAll(raw, "Service", "") snake-cased; unexported methods
are skipped, but an exported method whose arity is not (3 in, 2 out)
panics with "exported method must be action", and validateAction
(lines 86-100) turns every failed type-shape probe into a panic as
well.  `omitted` and `anonymous` are the values of the optional
OmittedAttribute / AnonymousAttribute probes on the service instance. -/
def makeReflectAppLoop (toSnake : String → String) (svcName : String)
    (omitted anonymous : Bool) : List GoMethod → Except String (List AppAction)
  | [] => .ok []
  | m :: rest =>
    if ¬ m.exported then makeReflectAppLoop toSnake svcName omitted anonymous rest
    else if m.numIn ≠ 3 ∨ m.numOut ≠ 2 then .error "exported method must be action"
    else if ¬ m.in1Context then .error "this position type must be context.Context"
    else if ¬ m.in2Request then .error "this position type must impl Request"
    else if ¬ m.out0PtrToStruct then .error "this position type must be a pointer of struct"
    else if ¬ m.out1Error then .error "this position type must be error"
    else do
      let acts ← makeReflectAppLoop toSnake svcName omitted anonymous rest
      .ok ({ serviceName := svcName, methodName := toSnake m.name,
             omitted := omitted, anonymous := anonymous } :: acts)

/-- Entry of makeReflect (src/app/reflect.go lines 19-31): the suffix
check and resource-name derivation, then the method loop above. -/
def makeReflectApp (toSnake : String → String) (rawSvcName : String)
    (omitted anonymous : Bool) (ms : List GoMethod) : Except String (List AppAction) :=
  if ¬ strEndsWith rawSvcName "Service" then .error "must ends with Service"
  else makeReflectAppLoop toSnake (toSnake (removeAllStr rawSvcName "Service"))
    omitted anonymous ms

/-- The route metadata of a reflectAction consumed by route binding in
src/app/gin.go fillActions (lines 117-136): derived resource and method
segments and the owning service's omitted flag. -/
structure ActionMeta where
  serviceName : String
  methodName : String
  omitted : Bool
deriving DecidableEq, Repr

/-- A registered HTTP route: verb and absolute path. -/
structure Route where
  verb : String
  path : String
deriving DecidableEq, Repr

/-- The relative route computed in src/app/gin.go lines 127-133: the bare
method name when the service is omitted, otherwise "/{resource}/{method}". -/
def actionRelPath (a : ActionMeta) : String :=
  if a.omitted then a.methodName else "/" ++ a.serviceName ++ "/" ++ a.methodName

/-- Path joining as performed by the HTTP router when a group registers a
relative path (gin joinPaths, backed by path.Join).  Modelled for the
shapes that occur here — no dot segments and no internal double slashes:
an empty relative path yields the base, otherwise base and relative are
concatenated with exactly one slash between them. -/
def joinPath (base rel : String) : String :=
  if rel = "" then base
  else
    (if strEndsWith base "/" then dropRightStr base 1 else base) ++
      (if strStartsWith rel "/" then rel else "/" ++ rel)

/-- Route registration for one resolved service: fillActions
(src/app/gin.go lines 117-136) registers every discovered action as a
POST route under the enclosing router group. -/
def fillActionsRoutes (groupPath : String) (acts : List ActionMeta) : List Route :=
  acts.map (fun a => { verb := "POST", path := joinPath groupPath (actionRelPath a) })

/-- A version group after resolution and discovery: the major version and,
per stability tier, the per-constructor lists of discovered actions
(constructor resolution and discovery themselves are modelled by
makeActions above). -/
structure VGroupActions where
  mainVersion : Int
  stable : List (List ActionMeta)
  beta : List (List ActionMeta)
  alpha : List (List ActionMeta)
deriving Repr

/-- fillGroups from src/app/gin.go lines 100-116 (same shape in
src/unnamed/part_013 lines 307-323): for every constructor of each
stability tier, create a sub-group "/v{N}", "/v{N}beta" or "/v{N}alpha"
of the base-path group and register that constructor's actions there. -/
def fillGroupsRoutes (basePath : String) (vg : VGroupActions) : List Route :=
  (vg.stable.map fun svc =>
      fillActionsRoutes (joinPath basePath ("/v" ++ toString vg.mainVersion)) svc).flatten
    ++ (vg.beta.map fun svc =>
        fillActionsRoutes (joinPath basePath ("/v" ++ toString vg.mainVersion ++ "beta")) svc).flatten
    ++ (vg.alpha.map fun svc =>
        fillActionsRoutes (joinPath basePath ("/v" ++ toString vg.mainVersion ++ "alpha")) svc).flatten

/-- internal.KnownError from src/kit/app/internal/options.go lines 60-63:
the structured Known/Business error carrying a status string and a
message. -/
structure KnownError where
  status : String
  message : String
deriving DecidableEq, Repr

/-- The error interface values a business method can return, as the
pipeline distinguishes them (src/unnamed/part_013 lines 363-378):
`deadlineExceeded` is the context.DeadlineExceeded sentinel itself;
`known` is a value whose dynamic type is internal.KnownError; `other`
is any other non-nil error, carrying its message.  An error that merely
wraps the deadline sentinel (so errors.Is would match but == does not)
is an `other` value, because the pipeline compares with == against the
sentinel. -/
inductive GoErr where
  | deadlineExceeded
  | known (k : KnownError)
  | other (detail : String)
deriving DecidableEq, Repr

/-- KnownError.Is from src/kit/app/internal/options.go lines 69-76: type
assert the compared error to KnownError (anything else is not equal),
then compare the Status and Message fields by value. -/
def KnownError.Is (k : KnownError) (e : GoErr) : Bool :=
  match e with
  | GoErr.known n => k.status == n.status && k.message == n.message
  | _ => false

/-- internalError from src/app/error.go lines 13-17: the src/app variant
of the Known/Business error, which additionally carries a Details slice
(modelled as a list of strings; its contents never participate in
equality). -/
structure internalError where
  status : String
  message : String
  details : List String
deriving DecidableEq, Repr

/-- The error interface values of the src/app variant, mirroring GoErr:
`internalE` is a value whose dynamic type is internalError. -/
inductive AppGoErr where
  | deadlineExceeded
  | internalE (e : internalError)
  | other (detail : String)
deriving DecidableEq, Repr

/-- internalError.Is from src/app/error.go lines 23-30: type assert to
internalError, then compare Status and Message by value; Details is
ignored. -/
def internalError.Is (i : internalError) (e : AppGoErr) : Bool :=
  match e with
  | AppGoErr.internalE n => i.status == n.status && i.message == n.message
  | _ => false

/-- A Go interface value obtained from rtnList[0].Interface() after the
reflective method call.  MustResponse guarantees the first result's
static type is a concrete pointer *T, and in Go, Value.Interface() on a
value of concrete type always produces an interface whose type word is
*T — even when the pointer itself is nil.  Such an interface compares
unequal to the untyped nil interface, so `nilInterface` (the only value
for which == nil holds) is never produced by a method result; it exists
to make the comparison semantics explicit. -/
inductive AnyVal (R : Type) where
  | nilInterface
  | wrapPtr (p : Option R)
deriving DecidableEq, Repr

/-- The Go comparison `result == nil` on an interface value: true only
for the untyped nil interface. -/
def AnyVal.eqNil {R : Type} : AnyVal R → Bool
  | AnyVal.nilInterface => false
  | AnyVal.wrapPtr _ => false

/-- Interface() applied to the first reflective call result: the static
type is the concrete pointer type *T, so the produced interface always
wraps that concrete type. -/
def AnyVal.ofCallResult {R : Type} (p : Option R) : AnyVal R :=
  AnyVal.wrapPtr p

/-- A response body as the handler writes it: AbortWithStatus leaves the
body empty; the 409 path writes {"error": {"status": s, "message": m}};
the 200 json path writes {"result": v} where v is the interface value of
the method result (null when that wraps a nil pointer); the stream path
copies the file contents. -/
inductive Body (R : Type) where
  | empty
  | errorJson (status message : String)
  | resultJson (v : AnyVal R)
  | stream
deriving DecidableEq, Repr

/-- An HTTP response: status code and body. -/
structure HttpResponse (R : Type) where
  status : Nat
  body : Body R
deriving DecidableEq, Repr

/-- Error classification from src/unnamed/part_013 lines 363-378 (the
same logic with internalError in src/app/gin.go lines 178-192): the
deadline sentinel maps to 504 Gateway Timeout with an empty body, a
KnownError value maps to 409 Conflict carrying the structured error, and
every other error maps to 500 Internal Server Error with an empty body,
so no detail of the underlying error reaches the client. -/
def classifyError {R : Type} : GoErr → HttpResponse R
  | GoErr.deadlineExceeded => { status := 504, body := Body.empty }
  | GoErr.known k => { status := 409, body := Body.errorJson k.status k.message }
  | GoErr.other _ => { status := 500, body := Body.empty }

/-- Outcome of handleInterceptors: proceed, or abort with a status. -/
inductive InterceptOutcome where
  | pass
  | abort (status : Nat)
deriving DecidableEq, Repr

/-- handleInterceptors from src/unnamed/part_013 lines 402-421 (the same
nesting inline in src/app/gin.go lines 139-153): when an identity
interceptor is configured and rejects the headers, abort with 401; only
when identity succeeded is a configured permission interceptor
consulted, aborting with 403 on rejection; with no identity interceptor
configured the whole stage passes unconditionally.  An interceptor is a
callback from the request headers to an optional error (none = accept). -/
def handleInterceptors {H : Type} (idInterceptor permInterceptor : Option (H → Option GoErr))
    (h : H) : InterceptOutcome :=
  match idInterceptor with
  | none => InterceptOutcome.pass
  | some f =>
    match f h with
    | some _ => InterceptOutcome.abort 401
    | none =>
      match permInterceptor with
      | none => InterceptOutcome.pass
      | some g =>
        match g h with
        | some _ => InterceptOutcome.abort 403
        | none => InterceptOutcome.pass

/-- The pipeline configuration drawn from Options: the two interceptor
callbacks (src/kit/app/internal/options.go lines 30-31) and the JSON
deserialization semantics for the action's payload type P.  decodeInto
models json.Decoder.Decode through c.ShouldBind(&req): because
action.bindData holds a pointer captured once at discovery time,
encoding/json decodes into the pointed-to struct in place — fields
present in the body overwrite, fields absent keep the struct's previous
values — and a malformed body reports an error (none). -/
structure HandlerEnv (H B P : Type) where
  idInterceptor : Option (H → Option GoErr)
  permInterceptor : Option (H → Option GoErr)
  decodeInto : B → P → Option P

/-- The per-action runtime data captured at bind time: the anonymous
flag of the owning service (src/app/gin.go; the src/unnamed/part_013
variant has no such flag and behaves as anonymous = false), the response
kind, the payload's Validate method, and the bound business method —
a function from the dereferenced payload to (first result pointer,
error interface value), the request-scoped context being irrelevant to
the properties below. -/
structure ActionRt (P R : Type) where
  anonymous : Bool
  respType : RespType
  validate : P → Option GoErr
  method : P → Option R × Option GoErr

/-- What one handler invocation produced: the HTTP response, whether the
business method was actually called, and the content of the shared
bindData struct after the request. -/
structure HandlerResult (P R : Type) where
  resp : HttpResponse R
  invoked : Bool
  cell : P
deriving DecidableEq, Repr

/-- The per-request handler closure registered for one action, from
src/unnamed/part_013 fillActions lines 331-398 with the anonymous guard
of src/app/gin.go lines 138-153.  Strictly sequential stages, first
failure short-circuits: interceptors (skipped for anonymous actions),
payload binding into the shared bindData struct (400 on failure),
payload validation (400 on failure), reflective invocation with the
dereferenced payload, error classification, then result serialization —
the stream branch streams the file with 200, the json branch answers 404
if the result interface equals nil and 200 with the result envelope
otherwise.  (The request-id header echo and the stream branch's
Stat-failure path touch no claim and are not modelled.) -/
def runPipeline {H B P R : Type} (env : HandlerEnv H B P) (act : ActionRt P R)
    (cell : P) (hdr : H) (body : B) : HandlerResult P R :=
  let authorized :=
    if act.anonymous then InterceptOutcome.pass
    else handleInterceptors env.idInterceptor env.permInterceptor hdr
  match authorized with
  | InterceptOutcome.abort s =>
    { resp := { status := s, body := Body.empty }, invoked := false, cell := cell }
  | InterceptOutcome.pass =>
    match env.decodeInto body cell with
    | none => { resp := { status := 400, body := Body.empty }, invoked := false, cell := cell }
    | some bound =>
      match act.validate bound with
      | some _ => { resp := { status := 400, body := Body.empty }, invoked := false, cell := bound }
      | none =>
        match act.method bound with
        | (_, some e) => { resp := classifyError e, invoked := true, cell := bound }
        | (r0, none) =>
          if act.respType = RespType.stream then
            { resp := { status := 200, body := Body.stream }, invoked := true, cell := bound }
          else
            let result := AnyVal.ofCallResult r0
            if result.eqNil then
              { resp := { status := 404, body := Body.empty }, invoked := true, cell := bound }
            else
              { resp := { status := 200, body := Body.resultJson result }, invoked := true,
                cell := bound }

/-- Sequential handling of several requests through the same action:
the bindData cell that binding wrote for one request is the cell the
next request starts from, because action.bindData is captured once per
action and shared by every request routed to it. -/
def runRequests {H B P R : Type} (env : HandlerEnv H B P) (act : ActionRt P R) :
    P → List (H × B) → List (HandlerResult P R)
  | _, [] => []
  | cell, (h, b) :: rest =>
    let r := runPipeline env act cell h b
    r :: runRequests env act r.cell rest

/-- A concrete request payload struct, after the end-to-end example of the
specification: type SumReq struct { X int; Y int }. -/
structure SumReq where
  x : Int
  y : Int
deriving DecidableEq, Repr

/-- A concrete JSON request body for SumReq: each field either present
with a value or absent, plus a malformed flag for bodies that are not
valid JSON at all. -/
structure SumBody where
  xField : Option Int
  yField : Option Int
  malformed : Bool
deriving DecidableEq, Repr

/-- encoding/json decoding of a SumBody into an existing SumReq struct
(the pointed-to struct of the shared bindData pointer): a malformed body
fails; otherwise each field present in the body overwrites the struct
field and each absent field leaves the struct field's previous value in
place, which is precisely json.Decoder.Decode semantics for a struct
that is reused rather than zeroed. -/
def sumDecodeInto (b : SumBody) (p : SumReq) : Option SumReq :=
  if b.malformed then none
  else some { x := b.xField.getD p.x, y := b.yField.getD p.y }

/-- A pipeline environment with no interceptors configured and SumReq
JSON binding. -/
def plainEnv : HandlerEnv Unit SumBody SumReq :=
  { idInterceptor := none, permInterceptor := none, decodeInto := sumDecodeInto }

/-- A json action whose method echoes its bound payload back as the
response struct and never fails: Echo(ctx, req) (*SumReq, error) with
result &req, nil.  Its 200 response therefore reveals exactly the
payload value the method was invoked with. -/
def echoAction : ActionRt SumReq SumReq :=
  { anonymous := true, respType := RespType.json,
    validate := fun _ => none, method := fun p => (some p, none) }

/-- A json action whose method returns (nil, nil), the convention the
specification assigns to "not found". -/
def nilAction : ActionRt SumReq SumReq :=
  { anonymous := true, respType := RespType.json,
    validate := fun _ => none, method := fun _ => (none, none) }

/-- A request body carrying both fields: {"x": 1000, "y": 500}. -/
def bodyFull : SumBody := { xField := some 1000, yField := some 500, malformed := false }

/-- A request body carrying only y: {"y": 5}. -/
def bodyOnlyY : SumBody := { xField := none, yField := some 5, malformed := false }

/-- A malformed request body that fails deserialization. -/
def bodyBad : SumBody := { xField := none, yField := none, malformed := true }

/-- A conforming action method as reflection reports it:
Sum(ctx, req) (*SumResp, error), exported, 3 in (receiver included),
2 out, context/Request/pointer-to-struct/error probes all true. -/
def mGood : GoMethod :=
  { name := "Sum", exported := true, numIn := 3, numOut := 2,
    in1Context := true, in2Request := true,
    out0PtrToStruct := true, out0IsFile := false, out1Error := true }

/-- A second conforming action method, GetUser. -/
def mGood2 : GoMethod :=
  { name := "GetUser", exported := true, numIn := 3, numOut := 2,
    in1Context := true, in2Request := true,
    out0PtrToStruct := true, out0IsFile := false, out1Error := true }

/-- An exported helper method whose arity does not match the action
shape: Helper(x int) int has 2 in (receiver included) and 1 out. -/
def mHelper : GoMethod :=
  { name := "Helper", exported := true, numIn := 2, numOut := 1,
    in1Context := false, in2Request := false,
    out0PtrToStruct := false, out0IsFile := false, out1Error := false }

/-- A constructor that is a plain non-variadic function with exactly one
pointer return value but whose name does not begin with New:
func MakeThing() *Thing. -/
def makeThingCtor : ConstructorDesc :=
  { kind := GoKind.funcKind, runtimeName := "main.MakeThing",
    variadic := false, outKinds := [GoKind.pointer] }

/-- A json action whose method always reports the deadline sentinel. -/
def deadlineAction : ActionRt SumReq SumReq :=
  { anonymous := true, respType := RespType.json, validate := fun _ => none,
    method := fun _ => (none, some GoErr.deadlineExceeded) }

/-- A json action whose method returns the business error
{status: "dup", message: "already exists"}. -/
def dupAction : ActionRt SumReq SumReq :=
  { anonymous := true, respType := RespType.json, validate := fun _ => none,
    method := fun _ => (none, some (GoErr.known { status := "dup", message := "already exists" })) }

/-- An interceptor callback that rejects every request. -/
def rejectAll : Unit → Option GoErr := fun _ => some (GoErr.other "rejected")

/-- An interceptor callback that accepts every request. -/
def acceptAll : Unit → Option GoErr := fun _ => none

/-- An environment whose identity interceptor rejects everything. -/
def authEnv : HandlerEnv Unit SumBody SumReq :=
  { idInterceptor := some rejectAll, permInterceptor := none, decodeInto := sumDecodeInto }

/-- An environment whose identity interceptor accepts and whose
permission interceptor rejects. -/
def authEnv2 : HandlerEnv Unit SumBody SumReq :=
  { idInterceptor := some acceptAll, permInterceptor := some rejectAll,
    decodeInto := sumDecodeInto }

/-- An environment with no identity interceptor but a configured (and
rejecting) permission interceptor. -/
def permOnlyEnv : HandlerEnv Unit SumBody SumReq :=
  { idInterceptor := none, permInterceptor := some rejectAll, decodeInto := sumDecodeInto }

/-- The echo action with a non-anonymous owning service. -/
def guardedEcho : ActionRt SumReq SumReq :=
  { echoAction with anonymous := false }

/-- The suffix loop is the removal of all occurrences of the first
configured suffix the lowered name ends with. -/
theorem applySuffixes_eq_find (suffixes : List String) (lr : String) :
    applySuffixes suffixes lr =
      (match suffixes.find? (fun s => strEndsWith lr s) with
       | some s => removeAllStr lr s
       | none => lr) := by
  induction suffixes with
  | nil => rfl
  | cons s rest ih =>
    by_cases h : strEndsWith lr s
    · simp [applySuffixes, List.find?, h]
    · simp [applySuffixes, List.find?, h, ih]

/-- C4 counterexample: func MakeThing() *Thing is a non-variadic function
with exactly one pointer-kinded return value, yet registration rejects
it, because VerifyConstructor additionally requires the function name to
start with "New". -/
theorem c4_counterexample :
    makeThingCtor.kind = GoKind.funcKind ∧ makeThingCtor.variadic = false ∧
    makeThingCtor.outKinds = [GoKind.pointer] ∧
    VerifyConstructor makeThingCtor = Except.error "constructor must start with New" :=
  ⟨rfl, rfl, rfl, rfl⟩

/-- C4 (amended): constructor registration succeeds exactly for
non-variadic functions whose runtime name's last dotted segment starts
with "New" and which return exactly one value of pointer or interface
kind; every other constructor fails fast with a descriptive error. -/
theorem c4_registration_iff (c : ConstructorDesc) :
    VerifyConstructor c = Except.ok () ↔
      (c.kind = GoKind.funcKind ∧
       strStartsWith (lastDotSegment c.runtimeName) "New" = true ∧
       c.variadic = false ∧
       ∃ k, c.outKinds = [k] ∧ (k = GoKind.pointer ∨ k = GoKind.interface_)) := by
  obtain ⟨kind, name, variadic, outs⟩ := c
  rcases outs with _ | ⟨k, _ | ⟨k2, tl⟩⟩ <;>
    · simp only [VerifyConstructor]
      split_ifs <;> simp_all

/-- C6 counterexample: for the type name ServiceUserService with the
default suffix list, the code derives the resource segment "user"
(strings.ReplaceAll removes both occurrences of "service"), while the
specification's suffix stripping would leave "serviceuser". -/
theorem c6_counterexample :
    (GenRoute toSnakeSimple ["service", "handler", "usecase", "controller"]
        "ServiceUserService" "GetUser").fst = "user" ∧
    (genRouteSpec toSnakeSimple ["service", "handler", "usecase", "controller"]
        "ServiceUserService" "GetUser").fst = "serviceuser" ∧
    ("user" : String) ≠ "serviceuser" := by
  refine ⟨rfl, rfl, by decide⟩

/-- C6 (amended): the resource path segment is the service's concrete
type name lower-cased with every occurrence of the first matching
configured suffix removed (the suffix list is checked in order and
defaults to service/handler/usecase/controller), then snake-cased; the
method segment is the method name snake-cased. -/
theorem c6_route_names_amended (toSnake : String → String) (suffixes : List String)
    (resource action : String) :
    GenRoute toSnake suffixes resource action =
      (toSnake (match suffixes.find? (fun s => strEndsWith (lowerStr resource) s) with
        | some s => removeAllStr (lowerStr resource) s
        | none => lowerStr resource),
       toSnake action) ∧
    (AppOptions.ensure { addr := "", ctxTimeoutNs := 0, suffixes := [] }).suffixes =
      ["service", "handler", "usecase", "controller"] := by
  refine ⟨?_, rfl⟩
  simp only [GenRoute, applySuffixes_eq_find]

/-- C5 counterexample: a service mixing the conforming method Sum with
the exported helper Helper(x int) int (2 in, 1 out).  The discovery
variant in src/app/reflect.go does not skip the helper — it panics with
"exported method must be action" — so with that variant the service
yields no routes at all; by contrast the makeActions variant
(src/unnamed/part_013) skips the helper and discovers exactly the
conforming method. -/
theorem c5_counterexample :
    mHelper.exported = true ∧ mHelper.numIn ≠ 3 ∧
    makeReflectApp toSnakeSimple "DemoService" false false [mGood, mHelper] =
      Except.error "exported method must be action" ∧
    makeActions toSnakeSimple ["service"] "DemoService" [mGood, mHelper] =
      Except.ok [{ serviceName := "demo", methodName := "sum", respType := RespType.json }] :=
  ⟨rfl, by decide, rfl, rfl⟩

/-- C5 (amended): in the makeActions discovery variant
(src/unnamed/part_013, identical to MakeReflect in
src/kit/app/internal/reflect.go), a method whose arity is not (two
inputs beyond the receiver, two outputs) contributes nothing and causes
no failure: discovery of any method list containing it equals discovery
with it removed, so a mixed service yields routes for exactly the
conforming methods; the src/app/reflect.go variant instead aborts
discovery with a panic on any exported non-conforming method. -/
theorem c5_skip_amended (toSnake : String → String) (suffixes : List String)
    (svc : String) (pre post : List GoMethod) (m : GoMethod)
    (hskip : m.numIn ≠ 3 ∨ m.numOut ≠ 2) :
    makeActions toSnake suffixes svc (pre ++ m :: post) =
      makeActions toSnake suffixes svc (pre ++ post) := by
  induction pre with
  | nil =>
    by_cases he : m.exported
    · simp [makeActions, he, hskip]
    · simp [makeActions, he]
  | cons m0 rest ih =>
    simp only [List.cons_append, makeActions, List.append_eq, ih]

/-- C5 witness: removing the non-conforming helper from the method list
does not change what makeActions discovers. -/
theorem c5_skip_amended_witness :
    (mHelper.numIn ≠ 3 ∨ mHelper.numOut ≠ 2) ∧
    makeActions toSnakeSimple ["service"] "DemoService" ([mGood] ++ mHelper :: []) =
      makeActions toSnakeSimple ["service"] "DemoService" ([mGood] ++ []) :=
  ⟨by decide,
   c5_skip_amended toSnakeSimple ["service"] "DemoService" [mGood] [] mHelper (by decide)⟩

/-- C2: a json action whose method returns (nil, nil) does not produce
the intended 404 — the method result reaches the handler as an
interface wrapping the concrete pointer type, which never compares
equal to nil, so the nil check is dead and the pipeline answers
200 with body {"result": null}. -/
theorem c2_nil_result_bug :
    runPipeline plainEnv nilAction { x := 0, y := 0 } () bodyFull =
      { resp := { status := 200, body := Body.resultJson (AnyVal.wrapPtr none) },
        invoked := true, cell := { x := 1000, y := 500 } } ∧
    (runPipeline plainEnv nilAction { x := 0, y := 0 } () bodyFull).resp.status ≠ 404 ∧
    (runPipeline plainEnv nilAction { x := 0, y := 0 } () bodyFull).resp.body ≠ Body.empty := by
  exact ⟨by decide, by decide, by decide⟩

/-- C3: the bind prototype is captured once per action and shared, not
cloned per request — req := action.bindData copies only the interface
header, and json decoding writes through the shared pointer.  The same
request body {"y": 5} therefore binds to payload {x: 1000, y: 5} when a
request {"x": 1000, "y": 500} was handled before it, but to
{x: 0, y: 5} when handled first: the payload passed to the method
depends on other requests' bodies.  The 400-on-bad-body half of the
claim does hold: a malformed body aborts with 400 and the method is not
invoked. -/
theorem c3_shared_bind_bug :
    (runRequests plainEnv echoAction { x := 0, y := 0 } [((), bodyFull), ((), bodyOnlyY)]).map
        (fun r => r.resp) =
      [{ status := 200, body := Body.resultJson (AnyVal.wrapPtr (some { x := 1000, y := 500 })) },
       { status := 200, body := Body.resultJson (AnyVal.wrapPtr (some { x := 1000, y := 5 })) }] ∧
    (runRequests plainEnv echoAction { x := 0, y := 0 } [((), bodyOnlyY)]).map
        (fun r => r.resp) =
      [{ status := 200, body := Body.resultJson (AnyVal.wrapPtr (some { x := 0, y := 5 })) }] ∧
    ({ x := 1000, y := 5 } : SumReq) ≠ { x := 0, y := 5 } ∧
    runPipeline plainEnv echoAction { x := 0, y := 0 } () bodyBad =
      { resp := { status := 400, body := Body.empty }, invoked := false,
        cell := { x := 0, y := 0 } } := by
  exact ⟨by decide, by decide, by decide, by decide⟩

/-- A string beginning with a slash is not empty. -/
theorem slash_append_ne_empty (s : String) : ("/" ++ s) ≠ "" := by
  obtain ⟨l⟩ := s
  intro h
  have h2 : '/' :: l = [] := congrArg String.data h
  exact absurd h2 (by simp)

/-- A string beginning with a slash starts with "/". -/
theorem strStartsWith_slash_append (s : String) : strStartsWith ("/" ++ s) "/" = true := by
  obtain ⟨l⟩ := s
  simp [strStartsWith, List.isPrefixOf]

/-- Membership in the routes of one stability tier. -/
theorem mem_tier_routes (p : String) (L : List (List ActionMeta)) (r : Route) :
    r ∈ (L.map fun svc => fillActionsRoutes p svc).flatten ↔
      ∃ svc ∈ L, ∃ a ∈ svc, r = { verb := "POST", path := joinPath p (actionRelPath a) } := by
  simp only [List.mem_flatten, List.mem_map, fillActionsRoutes]
  constructor
  · rintro ⟨l, ⟨svc, hsvc, rfl⟩, hr⟩
    rcases List.mem_map.mp hr with ⟨a, ha, rfl⟩
    exact ⟨svc, hsvc, a, ha, rfl⟩
  · rintro ⟨svc, hsvc, a, ha, rfl⟩
    exact ⟨_, ⟨svc, hsvc, rfl⟩, List.mem_map.mpr ⟨a, ha, rfl⟩⟩

/-- C7: the routes registered for a version group are exactly one POST
route per discovered action, under the tier path "/v{N}", "/v{N}beta"
or "/v{N}alpha" joined below the configured base path; and for a tier
group path g (no trailing slash) the registered path is
g/{resource}/{method}, collapsing to g/{method} when the owning service
is omitted. -/
theorem c7_route_paths :
    (∀ (basePath : String) (vg : VGroupActions) (r : Route),
      r ∈ fillGroupsRoutes basePath vg ↔
        ((∃ svc ∈ vg.stable, ∃ a ∈ svc,
            r = { verb := "POST",
                  path := joinPath (joinPath basePath ("/v" ++ toString vg.mainVersion))
                    (actionRelPath a) }) ∨
         (∃ svc ∈ vg.beta, ∃ a ∈ svc,
            r = { verb := "POST",
                  path := joinPath (joinPath basePath ("/v" ++ toString vg.mainVersion ++ "beta"))
                    (actionRelPath a) }) ∨
         (∃ svc ∈ vg.alpha, ∃ a ∈ svc,
            r = { verb := "POST",
                  path := joinPath (joinPath basePath ("/v" ++ toString vg.mainVersion ++ "alpha"))
                    (actionRelPath a) }))) ∧
    (∀ (g : String) (a : ActionMeta), strEndsWith g "/" = false → a.methodName ≠ "" →
      strStartsWith a.methodName "/" = false →
      fillActionsRoutes g [a] =
        [{ verb := "POST",
           path := g ++ (if a.omitted then "/" ++ a.methodName
                         else "/" ++ (a.serviceName ++ ("/" ++ a.methodName))) }]) := by
  constructor
  · intro basePath vg r
    simp only [fillGroupsRoutes, List.mem_append, mem_tier_routes]
    exact or_assoc
  · intro g a h1 h2 h3
    by_cases ho : a.omitted
    · simp [fillActionsRoutes, actionRelPath, joinPath, ho, h1, h2, h3]
    · simp [fillActionsRoutes, actionRelPath, joinPath, ho, h1, String.append_assoc,
        slash_append_ne_empty, strStartsWith_slash_append]

/-- C7 witness: a concrete non-omitted action registered under the
stable tier path of version 1. -/
theorem c7_route_paths_witness :
    fillActionsRoutes "/v1" [{ serviceName := "demo", methodName := "sum", omitted := false }] =
      [{ verb := "POST", path := "/v1/demo/sum" }] := by
  have h := c7_route_paths.2 "/v1"
    { serviceName := "demo", methodName := "sum", omitted := false }
    (by decide) (by decide) (by decide)
  rw [h]
  decide

/-- The authorization stage reduces to pass for an anonymous action or a
passing interceptor chain. -/
theorem auth_stage_pass {H B P : Type} (env : HandlerEnv H B P) (anonymous : Bool) (hdr : H)
    (hp : anonymous = true ∨
      handleInterceptors env.idInterceptor env.permInterceptor hdr = InterceptOutcome.pass) :
    (if anonymous then InterceptOutcome.pass
     else handleInterceptors env.idInterceptor env.permInterceptor hdr) =
      InterceptOutcome.pass := by
  rcases hp with h | h
  · simp [h]
  · by_cases ha : anonymous <;> simp [ha, h]

/-- Once the authorization stage passes, every status the handler can
produce lies in {200, 400, 404, 409, 500, 504}. -/
theorem runPipeline_pass_status {H B P R : Type} (env : HandlerEnv H B P) (act : ActionRt P R)
    (cell : P) (hdr : H) (body : B)
    (hp : act.anonymous = true ∨
      handleInterceptors env.idInterceptor env.permInterceptor hdr = InterceptOutcome.pass) :
    (runPipeline env act cell hdr body).resp.status ∈ [200, 400, 404, 409, 500, 504] := by
  simp only [runPipeline, auth_stage_pass env act.anonymous hdr hp]
  rcases hd : env.decodeInto body cell with _ | bound
  · simp [hd]
  · rcases hv : act.validate bound with _ | e0
    · rcases hm : act.method bound with ⟨r0, e⟩
      rcases e with _ | e
      · by_cases hrt : act.respType = RespType.stream <;>
          simp [hd, hv, hm, hrt, AnyVal.ofCallResult, AnyVal.eqNil]
      · rcases e <;> simp [hd, hv, hm, classifyError]
    · simp [hd, hv]

/-- C1: when the business method returns a non-nil error, the handler
responds with classifyError of that error: 504 with empty body for the
deadline sentinel itself, 409 carrying exactly the structured status and
message for a KnownError value, and 500 with an empty body — leaking
nothing of the underlying error — for everything else. -/
theorem c1_error_classification {H B P R : Type} (env : HandlerEnv H B P) (act : ActionRt P R)
    (cell bound : P) (hdr : H) (body : B) (r0 : Option R) (e : GoErr)
    (hauth : act.anonymous = true ∨
      handleInterceptors env.idInterceptor env.permInterceptor hdr = InterceptOutcome.pass)
    (hbind : env.decodeInto body cell = some bound)
    (hval : act.validate bound = none)
    (hm : act.method bound = (r0, some e)) :
    (runPipeline env act cell hdr body).resp = classifyError e ∧
    @classifyError R GoErr.deadlineExceeded = { status := 504, body := Body.empty } ∧
    (∀ k : KnownError, @classifyError R (GoErr.known k) =
      { status := 409, body := Body.errorJson k.status k.message }) ∧
    (∀ detail, @classifyError R (GoErr.other detail) =
      { status := 500, body := Body.empty }) := by
  refine ⟨?_, rfl, fun k => rfl, fun detail => rfl⟩
  simp only [runPipeline, auth_stage_pass env act.anonymous hdr hauth, hbind, hval, hm]

/-- C1 witness: a method reporting the deadline sentinel yields 504. -/
theorem c1_error_classification_witness :
    (runPipeline plainEnv deadlineAction { x := 0, y := 0 } () bodyFull).resp =
      { status := 504, body := Body.empty } := by
  have h := c1_error_classification plainEnv deadlineAction { x := 0, y := 0 }
    { x := 1000, y := 500 } () bodyFull none GoErr.deadlineExceeded (Or.inl rfl) rfl rfl rfl
  exact h.1.trans h.2.1

/-- C8: for a non-anonymous action with a configured identity
interceptor, a rejected identity aborts with 401 before binding runs or
the method can be invoked, and an accepted identity followed by a
rejecting configured permission interceptor aborts with 403 likewise:
in both cases the result is independent of body, binding, validation
and method, the method is not invoked, and the bind cell is untouched. -/
theorem c8_interceptor_stages {H B P R : Type} (env : HandlerEnv H B P) (act : ActionRt P R)
    (cell : P) (hdr : H) (body : B) (f : H → Option GoErr)
    (han : act.anonymous = false) (hid : env.idInterceptor = some f) :
    (∀ e, f hdr = some e →
      runPipeline env act cell hdr body =
        { resp := { status := 401, body := Body.empty }, invoked := false, cell := cell }) ∧
    (∀ (g : H → Option GoErr) (e : GoErr), f hdr = none → env.permInterceptor = some g →
      g hdr = some e →
      runPipeline env act cell hdr body =
        { resp := { status := 403, body := Body.empty }, invoked := false, cell := cell }) := by
  constructor
  · intro e he
    simp [runPipeline, handleInterceptors, han, hid, he]
  · intro g e hf hperm hg
    simp [runPipeline, handleInterceptors, han, hid, hf, hperm, hg]

/-- C8 witness: a rejecting identity interceptor yields 401, and an
accepting identity with rejecting permission interceptor yields 403,
in both cases without invoking the method or touching the bind cell. -/
theorem c8_interceptor_stages_witness :
    runPipeline authEnv guardedEcho { x := 0, y := 0 } () bodyFull =
      { resp := { status := 401, body := Body.empty }, invoked := false,
        cell := { x := 0, y := 0 } } ∧
    runPipeline authEnv2 guardedEcho { x := 0, y := 0 } () bodyFull =
      { resp := { status := 403, body := Body.empty }, invoked := false,
        cell := { x := 0, y := 0 } } := by
  constructor
  · exact (c8_interceptor_stages authEnv guardedEcho { x := 0, y := 0 } () bodyFull rejectAll
      rfl rfl).1 (GoErr.other "rejected") rfl
  · exact (c8_interceptor_stages authEnv2 guardedEcho { x := 0, y := 0 } () bodyFull acceptAll
      rfl rfl).2 rejectAll (GoErr.other "rejected") rfl rfl rfl

/-- C9: two Known/Business error values agree under the Is capability
exactly when their status and message fields agree — independently of
identity and, in the src/app variant, independently of the Details
payload — and a method returning such an error yields a 409 response
whose body carries exactly that status and message. -/
theorem c9_known_error_equality {H B P R : Type} (env : HandlerEnv H B P) (act : ActionRt P R)
    (cell bound : P) (hdr : H) (body : B) (r0 : Option R) (s m : String)
    (d1 d2 : List String)
    (hauth : act.anonymous = true ∨
      handleInterceptors env.idInterceptor env.permInterceptor hdr = InterceptOutcome.pass)
    (hbind : env.decodeInto body cell = some bound)
    (hval : act.validate bound = none)
    (hm : act.method bound = (r0, some (GoErr.known { status := s, message := m }))) :
    KnownError.Is { status := s, message := m }
      (GoErr.known { status := s, message := m }) = true ∧
    internalError.Is { status := s, message := m, details := d1 }
      (AppGoErr.internalE { status := s, message := m, details := d2 }) = true ∧
    (∀ k n : KnownError, KnownError.Is k (GoErr.known n) =
      (k.status == n.status && k.message == n.message)) ∧
    (runPipeline env act cell hdr body).resp =
      { status := 409, body := Body.errorJson s m } := by
  refine ⟨by simp [KnownError.Is], by simp [internalError.Is], fun k n => rfl, ?_⟩
  simp only [runPipeline, auth_stage_pass env act.anonymous hdr hauth, hbind, hval, hm]
  rfl

/-- C9 witness: the error {status: "dup", message: "already exists"}
maps to 409 with exactly that payload, and two such values with
different Details are Is-equal. -/
theorem c9_known_error_equality_witness :
    KnownError.Is { status := "dup", message := "already exists" }
      (GoErr.known { status := "dup", message := "already exists" }) = true ∧
    internalError.Is { status := "dup", message := "already exists", details := [] }
      (AppGoErr.internalE
        { status := "dup", message := "already exists", details := ["ctx"] }) = true ∧
    (runPipeline plainEnv dupAction { x := 0, y := 0 } () bodyFull).resp =
      { status := 409, body := Body.errorJson "dup" "already exists" } := by
  have h := c9_known_error_equality plainEnv dupAction { x := 0, y := 0 }
    { x := 1000, y := 500 } () bodyFull none "dup" "already exists" [] ["ctx"]
    (Or.inl rfl) rfl rfl rfl
  exact ⟨h.1, h.2.1, h.2.2.2⟩

/-- C10: with no identity interceptor configured the
authentication/authorization stage passes every request unconditionally;
the permission interceptor is never consulted even when configured (the
handler result does not depend on it), and no request is answered 401 or
403. -/
theorem c10_no_identity_interceptor {H B P R : Type} (env : HandlerEnv H B P)
    (act : ActionRt P R) (cell : P) (hdr : H) (body : B)
    (hid : env.idInterceptor = none) :
    handleInterceptors env.idInterceptor env.permInterceptor hdr = InterceptOutcome.pass ∧
    (∀ p q : Option (H → Option GoErr),
      runPipeline { env with permInterceptor := p } act cell hdr body =
        runPipeline { env with permInterceptor := q } act cell hdr body) ∧
    (runPipeline env act cell hdr body).resp.status ≠ 401 ∧
    (runPipeline env act cell hdr body).resp.status ≠ 403 := by
  have hpass : ∀ p : Option (H → Option GoErr),
      handleInterceptors (H := H) none p hdr = InterceptOutcome.pass := by
    intro p
    simp [handleInterceptors]
  refine ⟨by rw [hid]; exact hpass env.permInterceptor, ?_, ?_, ?_⟩
  · intro p q
    simp only [runPipeline, hid, hpass]
  · intro hc
    have hmem := runPipeline_pass_status env act cell hdr body
      (Or.inr (by rw [hid]; exact hpass env.permInterceptor))
    rw [hc] at hmem
    exact absurd hmem (by decide)
  · intro hc
    have hmem := runPipeline_pass_status env act cell hdr body
      (Or.inr (by rw [hid]; exact hpass env.permInterceptor))
    rw [hc] at hmem
    exact absurd hmem (by decide)

/-- C10 witness: with no identity interceptor but a configured rejecting
permission interceptor, the stage passes, configuring the permission
interceptor differently does not change the handler result, and the
response is not 401. -/
theorem c10_no_identity_interceptor_witness :
    handleInterceptors permOnlyEnv.idInterceptor permOnlyEnv.permInterceptor () =
      InterceptOutcome.pass ∧
    runPipeline { permOnlyEnv with permInterceptor := some rejectAll } guardedEcho
        { x := 0, y := 0 } () bodyFull =
      runPipeline { permOnlyEnv with permInterceptor := none } guardedEcho
        { x := 0, y := 0 } () bodyFull ∧
    (runPipeline permOnlyEnv guardedEcho { x := 0, y := 0 } () bodyFull).resp.status ≠ 401 := by
  have h := c10_no_identity_interceptor permOnlyEnv guardedEcho { x := 0, y := 0 } () bodyFull rfl
  exact ⟨h.1, h.2.1 (some rejectAll) none, h.2.2.1⟩

end Circle
